import Mathlib

/-!
Verification development for the kimi-writer agent loop
(src/kimi-writer.py).  The Python source is shallowly embedded:

* Strings follow Python truthiness conventions: an absent or falsy
  (`""`) string attribute is modelled as `""`; optional values that the
  source represents as `None` are `Option`s.
* The streamed partial-update events of one model call are a
  `List Delta`; the in-loop accumulation of `reasoning_content`,
  `content_text`, `tool_calls_data` (lines 292-381 of the source) is a
  left fold over that list.
* External collaborators (token estimator, context compressor, the
  OpenAI streaming call, the tool registry, `json.loads`) form an
  `Oracle`.  Each call may succeed, raise `Exception`, or raise
  `KeyboardInterrupt` (`PyResult`); Python's `except Exception` does
  not catch `KeyboardInterrupt`, which the step functions reproduce.
* Observable calls to the collaborators are logged as `Ev` values so
  that theorems can state which external operations an execution
  performed (e.g. that an emergency snapshot save was attempted).
-/

namespace KimiWriter

/-- Constant from line 30 of the source. -/
def MAX_ITERATIONS : Nat := 300

/-- Constant from line 31 of the source. -/
def TOKEN_LIMIT : Nat := 200000

/-- Constant from line 32 of the source: trigger compression at 90% of limit. -/
def COMPRESSION_THRESHOLD : Nat := 180000

/-- Constant from line 34 of the source: save backup summary every N iterations. -/
def BACKUP_INTERVAL : Nat := 50

/-- One element of `delta.tool_calls` in a streamed chunk (lines 343-380).
A missing / falsy field is `""`. -/
structure ToolCallDelta where
  index : Nat
  id : String
  name : String
  arguments : String
deriving DecidableEq

/-- One streamed `delta` (lines 310-343).  A missing / falsy string field
is `""`; `tool_calls` is `[]` when absent. -/
structure Delta where
  role : String
  reasoning_content : String
  content : String
  tool_calls : List ToolCallDelta
deriving DecidableEq

/-- One accumulating slot of `tool_calls_data` (lines 347-352):
`{"id": None, "type": "function", "function": {"name": "", "arguments": ""},
"chars_received": 0}`. -/
structure ToolCallSlot where
  id : Option String
  name : String
  arguments : String
  chars_received : Nat
deriving DecidableEq

instance : Inhabited ToolCallSlot := ⟨⟨none, "", "", 0⟩⟩

/-- The freshly appended placeholder slot (lines 347-352). -/
def emptySlot : ToolCallSlot := default

/-- The `while len(tool_calls_data) <= tc_delta.index: append(...)` loop
(lines 346-352): pad with placeholder slots up to index `i`. -/
def extendSlots (S : List ToolCallSlot) (i : Nat) : List ToolCallSlot :=
  S ++ List.replicate (i + 1 - S.length) emptySlot

/-- Mutation of one slot by one tool-call delta (lines 367-374):
a truthy `id` is assigned (overwriting), a truthy `name` is assigned
(overwriting), a truthy `arguments` fragment is appended and counted. -/
def updateSlot (tc : ToolCallSlot) (d : ToolCallDelta) : ToolCallSlot :=
  { id := if d.id ≠ "" then some d.id else tc.id
    name := if d.name ≠ "" then d.name else tc.name
    arguments := if d.arguments ≠ "" then tc.arguments ++ d.arguments else tc.arguments
    chars_received :=
      if d.arguments ≠ "" then tc.chars_received + d.arguments.length
      else tc.chars_received }

/-- Processing of one `tc_delta` (lines 344-374): pad the slot array,
then update the slot at `d.index` in place. -/
def applyToolCallDelta (S : List ToolCallSlot) (d : ToolCallDelta) : List ToolCallSlot :=
  let T := extendSlots S d.index
  T.set d.index (updateSlot (T.getD d.index default) d)

/-- The whole-stream accumulator state (lines 293-296). -/
structure AccumState where
  reasoning_content : String
  content_text : String
  tool_calls_data : List ToolCallSlot
  role : String
deriving DecidableEq

/-- Initial accumulator state (lines 293-296): empty strings, no slots,
role `None` (modelled `""`). -/
def initAccum : AccumState := ⟨"", "", [], ""⟩

/-- Processing of one streamed `delta` (lines 310-374).  The four fields
are updated independently: role is overwritten when truthy, reasoning and
content fragments are appended when truthy, and each element of
`delta.tool_calls` is folded into the slot array. -/
def applyDelta (s : AccumState) (d : Delta) : AccumState :=
  { role := if d.role ≠ "" then d.role else s.role
    reasoning_content :=
      if d.reasoning_content ≠ "" then s.reasoning_content ++ d.reasoning_content
      else s.reasoning_content
    content_text :=
      if d.content ≠ "" then s.content_text ++ d.content else s.content_text
    tool_calls_data := d.tool_calls.foldl applyToolCallDelta s.tool_calls_data }

/-- The `for chunk in stream` loop (lines 306-381) over a whole event list. -/
def accumulate (events : List Delta) : AccumState :=
  events.foldl applyDelta initAccum

/-- A finalized tool call of the reconstructed message (lines 407-414). -/
structure ToolCall where
  id : String
  name : String
  arguments : String
deriving DecidableEq

/-- Python truthiness of the accumulated `tc["id"]` (line 406):
`None` and `""` are falsy. -/
def truthyOpt (o : Option String) : Bool :=
  match o with
  | none => false
  | some s => s ≠ ""

/-- The `for tc in tool_calls_data: if tc["id"]: append(...)` loop of
`ReconstructedMessage.__init__` (lines 405-415): keep slots with a truthy
id, in array order. -/
def survivors (S : List ToolCallSlot) : List ToolCall :=
  (S.filter (fun tc => truthyOpt tc.id)).map
    (fun tc => ⟨tc.id.getD "", tc.name, tc.arguments⟩)

/-- The `ReconstructedMessage` object (lines 392-417). -/
structure RMessage where
  role : String
  content : Option String
  reasoning_content : Option String
  tool_calls : Option (List ToolCall)
deriving DecidableEq

/-- `ReconstructedMessage.__init__` (lines 392-415): role defaults to
`assistant`, empty content/reasoning become `None`, `tool_calls` is `None`
when no slot was ever created, else the surviving slot list. -/
def reconstruct (s : AccumState) : RMessage :=
  { role := if s.role ≠ "" then s.role else "assistant"
    content := if s.content_text ≠ "" then some s.content_text else none
    reasoning_content :=
      if s.reasoning_content ≠ "" then some s.reasoning_content else none
    tool_calls :=
      if s.tool_calls_data ≠ [] then some (survivors s.tool_calls_data) else none }

/-- The list the dispatch loop iterates over; `not message.tool_calls`
(line 424) is falsy exactly when this list is empty. -/
def RMessage.toolCallsList (m : RMessage) : List ToolCall :=
  m.tool_calls.getD []

/-- One entry of the message history (the dict form built by
`convert_message_for_api`, lines 119-168, and the literal dicts of
lines 200-214 and 478-483). -/
structure Turn where
  role : String
  content : Option String
  reasoning_content : Option String
  tool_calls : Option (List ToolCall)
  tool_call_id : Option String
  name : Option String
deriving DecidableEq

/-- Truthiness filter used by `convert_message_for_api` on optional
string attributes (`if msg.content:`). -/
def optTruthy (o : Option String) : Option String :=
  match o with
  | some c => if c ≠ "" then some c else none
  | none => none

/-- `convert_message_for_api` (lines 119-168) applied to a
`ReconstructedMessage`: every attribute is kept only when truthy; the
reconstructed message has no `tool_call_id` and no `name` attribute. -/
def convertMessage (m : RMessage) : Turn :=
  { role := m.role
    content := optTruthy m.content
    reasoning_content := optTruthy m.reasoning_content
    tool_calls :=
      match m.tool_calls with
      | some l => if l ≠ [] then some l else none
      | none => none
    tool_call_id := none
    name := none }

/-- The tool-result dict of lines 478-483. -/
def toolTurn (callId funcName result : String) : Turn :=
  { role := "tool", content := some result, reasoning_content := none,
    tool_calls := none, tool_call_id := some callId, name := some funcName }

/-- The initial system turn (lines 200-202). -/
def systemTurn (prompt : String) : Turn :=
  { role := "system", content := some prompt, reasoning_content := none,
    tool_calls := none, tool_call_id := none, name := none }

/-- The initial user turn in fresh-start mode (lines 211-214). -/
def userTurn (prompt : String) : Turn :=
  { role := "user", content := some prompt, reasoning_content := none,
    tool_calls := none, tool_call_id := none, name := none }

/-- Initial message history in fresh-start mode (lines 200-214). -/
def initMessages (systemPrompt userPrompt : String) : List Turn :=
  [systemTurn systemPrompt, userTurn userPrompt]

/-- Outcome of a call into external Python code: normal return, a raised
`Exception` (caught by `except Exception`), or a raised
`KeyboardInterrupt` (caught only by `except KeyboardInterrupt` or a bare
`except`). -/
inductive PyResult (α : Type) where
  | ok (a : α)
  | exn (e : String)
  | intr
deriving DecidableEq

/-- A parsed JSON argument object (`json.loads` result used as `**args`);
values are abstracted to strings, the tools are abstract anyway. -/
abbrev ArgObj : Type := List (String × String)

/-- The empty argument object `{}` (line 442). -/
def ArgObj.empty : ArgObj := []

/-- The dict returned by `compress_context_impl`: the optional
`compressed_messages` replacement store, the human-readable `message`,
and the optional `summary_file` path. -/
structure CompressResult where
  compressed_messages : Option (List Turn)
  message : String
  summary_file : Option String

/-- The external collaborators of the loop: token estimator, context
compressor, the streaming model call (indexed by the iteration it is made
in, since each call may behave differently), the static tool registry,
and `json.loads` on argument strings (`none` = `JSONDecodeError`). -/
structure Oracle where
  estimate : List Turn → PyResult Nat
  compress : List Turn → Nat → PyResult CompressResult
  modelCall : Nat → List Turn → PyResult (List Delta)
  toolMap : String → Option (ArgObj → PyResult String)
  jsonParse : String → Option ArgObj

/-- Observable external calls made during execution, in order:
an estimator call (with the store length it was given), a compressor call
(store length and `keep_recent`), a streaming model call, a tool
execution. -/
inductive Ev where
  | estimateCall (storeLen : Nat)
  | compressCall (storeLen keepRecent : Nat)
  | modelCall (storeLen : Nat)
  | toolExec (name : String)
deriving DecidableEq

/-- Result of one phase of the iteration body: normal completion, or a
`KeyboardInterrupt` that escaped the phase (the phase's handlers catch
only `Exception`). -/
inductive PhaseOut (α : Type) where
  | ok (a : α)
  | intr
deriving DecidableEq

/-- Token check and threshold-triggered compression (lines 236-262).
The whole block is wrapped in `try ... except Exception`: on any
`Exception` the iteration proceeds with `token_count = 0` and whatever
`messages` value was current at the raise point; a `KeyboardInterrupt`
escapes.  On successful compression the store is replaced and
re-estimated (line 257). -/
def phaseEstimate (O : Oracle) (ms : List Turn) :
    PhaseOut (Nat × List Turn) × List Ev :=
  match O.estimate ms with
  | .intr => (.intr, [.estimateCall ms.length])
  | .exn _ => (.ok (0, ms), [.estimateCall ms.length])
  | .ok tc =>
    if COMPRESSION_THRESHOLD ≤ tc then
      match O.compress ms 10 with
      | .intr => (.intr, [.estimateCall ms.length, .compressCall ms.length 10])
      | .exn _ => (.ok (0, ms), [.estimateCall ms.length, .compressCall ms.length 10])
      | .ok cr =>
        match cr.compressed_messages with
        | some ms2 =>
          match O.estimate ms2 with
          | .intr =>
            (.intr, [.estimateCall ms.length, .compressCall ms.length 10,
                     .estimateCall ms2.length])
          | .exn _ =>
            (.ok (0, ms2), [.estimateCall ms.length, .compressCall ms.length 10,
                            .estimateCall ms2.length])
          | .ok tc2 =>
            (.ok (tc2, ms2), [.estimateCall ms.length, .compressCall ms.length 10,
                              .estimateCall ms2.length])
        | none => (.ok (tc, ms), [.estimateCall ms.length, .compressCall ms.length 10])
    else (.ok (tc, ms), [.estimateCall ms.length])

/-- The periodic auto-backup (lines 264-277): every `BACKUP_INTERVAL`
iterations, a snapshot-only compression (`keep_recent = len(messages)`)
whose `Exception`s are swallowed; a `KeyboardInterrupt` escapes. -/
def phaseBackup (O : Oracle) (iteration : Nat) (ms : List Turn) :
    PhaseOut Unit × List Ev :=
  if iteration % BACKUP_INTERVAL = 0 then
    match O.compress ms ms.length with
    | .intr => (.intr, [.compressCall ms.length ms.length])
    | _ => (.ok (), [.compressCall ms.length ms.length])
  else (.ok (), [])

/-- Outcome of the tool-dispatch loop (lines 435-484), carrying the
message store at the moment the loop ended: normal completion, an
`Exception` escaping to the iteration handler (line 504), or a
`KeyboardInterrupt` escaping to the interrupt handler (line 486). -/
inductive BodyOut where
  | ok (ms : List Turn)
  | exn (ms : List Turn)
  | intr (ms : List Turn)
deriving DecidableEq

/-- The `for tool_call in message.tool_calls` loop (lines 435-484).
Arguments are parsed leniently (lines 439-442).  An unknown name yields
the synthetic error result (lines 450-452).  `compress_context` is
special-cased (lines 455-466): the compressor runs in shrinking mode and
its `compressed_messages`, when present, replace the store before the
result turn is appended.  Any other tool runs on the parsed arguments
(line 469).  Each completed invocation appends exactly one tool turn
(lines 478-484); a raised `Exception` or `KeyboardInterrupt` aborts the
loop with no turn for the raising invocation. -/
def dispatchTools (O : Oracle) : List Turn → List ToolCall → BodyOut × List Ev
  | ms, [] => (.ok ms, [])
  | ms, tc :: rest =>
    let args := (O.jsonParse tc.arguments).getD ArgObj.empty
    match O.toolMap tc.name with
    | none =>
      dispatchTools O
        (ms ++ [toolTurn tc.id tc.name ("Error: Unknown tool '" ++ tc.name ++ "'")])
        rest
    | some f =>
      if tc.name = "compress_context" then
        match O.compress ms 10 with
        | .intr => (.intr ms, [.compressCall ms.length 10])
        | .exn _ => (.exn ms, [.compressCall ms.length 10])
        | .ok cr =>
          let ms2 := cr.compressed_messages.getD ms
          let r := dispatchTools O (ms2 ++ [toolTurn tc.id tc.name cr.message]) rest
          (r.1, .compressCall ms.length 10 :: r.2)
      else
        match f args with
        | .intr => (.intr ms, [.toolExec tc.name])
        | .exn _ => (.exn ms, [.toolExec tc.name])
        | .ok result =>
          let r := dispatchTools O (ms ++ [toolTurn tc.id tc.name result]) rest
          (r.1, .toolExec tc.name :: r.2)

/-- Result of one loop iteration: fall through / `continue` to the next
iteration, `break` (task completed), `sys.exit(code)`, or an uncaught
exception propagating out of `main`. -/
inductive IterResult where
  | next (ms : List Turn)
  | done (ms : List Turn)
  | exit (code : Nat)
  | crash
deriving DecidableEq

/-- The `except KeyboardInterrupt` handler (lines 486-502): a best-effort
snapshot-only compression (`keep_recent = len(messages)`) whose outcome is
swallowed by a bare `except`, then `sys.exit(0)`. -/
def interruptSave (O : Oracle) (ms : List Turn) : IterResult × List Ev :=
  let _ := O.compress ms ms.length
  (.exit 0, [.compressCall ms.length ms.length])

/-- The `try` body of lines 280-484 for iteration `i`: one streaming model
call, accumulation, append of the reconstructed assistant turn, then
either `break` (no tool calls, lines 424-430) or tool dispatch.  An
`Exception` from the model call or a tool turns into `continue`
(lines 504-507); a `KeyboardInterrupt` runs the interrupt handler. -/
def iterBody (O : Oracle) (i : Nat) (ms : List Turn) : IterResult × List Ev :=
  match O.modelCall i ms with
  | .intr =>
    let r := interruptSave O ms
    (r.1, .modelCall ms.length :: r.2)
  | .exn _ => (.next ms, [.modelCall ms.length])
  | .ok events =>
    let msg := reconstruct (accumulate events)
    let ms2 := ms ++ [convertMessage msg]
    if msg.toolCallsList = [] then (.done ms2, [.modelCall ms.length])
    else
      match dispatchTools O ms2 msg.toolCallsList with
      | (.ok ms3, log) => (.next ms3, .modelCall ms.length :: log)
      | (.exn ms3, log) => (.next ms3, .modelCall ms.length :: log)
      | (.intr ms3, log) =>
        let r := interruptSave O ms3
        (r.1, .modelCall ms.length :: (log ++ r.2))

/-- Backup phase and iteration body (everything of one iteration after
the token check). -/
def afterEstimate (O : Oracle) (i : Nat) (ms : List Turn) : IterResult × List Ev :=
  match phaseBackup O i ms with
  | (.intr, log) => (.crash, log)
  | (.ok _, log) =>
    let r := iterBody O i ms
    (r.1, log ++ r.2)

/-- One full iteration of the `for iteration in range(1, MAX_ITERATIONS+1)`
loop (lines 231-507).  A `KeyboardInterrupt` escaping the token check or
the backup phase is uncaught (`except Exception` does not catch it) and
crashes the process. -/
def runIteration (O : Oracle) (i : Nat) (ms : List Turn) : IterResult × List Ev :=
  match phaseEstimate O ms with
  | (.intr, log) => (.crash, log)
  | (.ok (_, ms1), log) =>
    let r := afterEstimate O i ms1
    (r.1, log ++ r.2)

/-- How the `for` loop ended: `break` at iteration `i`, normal exhaustion
with the loop variable left at `i`, `sys.exit`, or an uncaught
exception. -/
inductive LoopExit where
  | broke (i : Nat) (ms : List Turn)
  | exhausted (i : Nat) (ms : List Turn)
  | exit (code : Nat)
  | crash
deriving DecidableEq

/-- The `for` loop from iteration `i` with `fuel` iterations remaining. -/
def loopFrom (O : Oracle) (i : Nat) (fuel : Nat) (ms : List Turn) :
    LoopExit × List Ev :=
  match fuel with
  | 0 => ((.exhausted (i - 1) ms), [])
  | fuel + 1 =>
    match runIteration O i ms with
    | (.next ms2, log) =>
      let r := loopFrom O (i + 1) fuel ms2
      (r.1, log ++ r.2)
    | (.done ms2, log) => (.broke i ms2, log)
    | (.exit c, log) => (.exit c, log)
    | (.crash, log) => (.crash, log)

/-- Overall outcome of `main`'s agent loop. -/
inductive MainExit where
  | completed (i : Nat) (ms : List Turn)
  | capReached (ms : List Turn)
  | exit (code : Nat)
  | crash
deriving DecidableEq

/-- The post-loop cap check (lines 509-529): after the loop — however it
ended — `if iteration >= MAX_ITERATIONS` triggers a final snapshot-only
compression whose `Exception`s are caught (line 528); a
`KeyboardInterrupt` there is uncaught. -/
def postLoopSave (O : Oracle) (ms : List Turn) (finish : MainExit) :
    MainExit × List Ev :=
  match O.compress ms ms.length with
  | .intr => (.crash, [.compressCall ms.length ms.length])
  | _ => (finish, [.compressCall ms.length ms.length])

/-- The agent loop plus the post-loop cap-reached save (lines 231-529). -/
def runMain (O : Oracle) (ms0 : List Turn) : MainExit × List Ev :=
  match loopFrom O 1 MAX_ITERATIONS ms0 with
  | (.broke i ms, log) =>
    if MAX_ITERATIONS ≤ i then
      let r := postLoopSave O ms (.completed i ms)
      (r.1, log ++ r.2)
    else (.completed i ms, log)
  | (.exhausted i ms, log) =>
    if MAX_ITERATIONS ≤ i then
      let r := postLoopSave O ms (.capReached ms)
      (r.1, log ++ r.2)
    else (.capReached ms, log)
  | (.exit c, log) => (.exit c, log)
  | (.crash, log) => (.crash, log)

/-! ### Event-level (specification-side) descriptions of the stream

The following definitions are computed from the raw event sequence alone,
never from the accumulator: which slot indices exist, which ids/names were
delivered, and the concatenation of the argument fragments per slot. -/

/-- All tool-call deltas of a stream, in arrival order. -/
def flatTCs (events : List Delta) : List ToolCallDelta :=
  (events.map Delta.tool_calls).flatten

/-- Number of slots the stream creates: one past the largest referenced
index (0 when no tool-call delta arrived). -/
def slotCount (tds : List ToolCallDelta) : Nat :=
  tds.foldl (fun n td => max n (td.index + 1)) 0

/-- The last non-empty id delivered for slot `k`, if any. -/
def lastSetId (tds : List ToolCallDelta) (k : Nat) : Option String :=
  tds.foldl (fun a td => if td.index = k ∧ td.id ≠ "" then some td.id else a) none

/-- The first non-empty id delivered for slot `k`, if any. -/
def firstSetId (tds : List ToolCallDelta) (k : Nat) : Option String :=
  tds.foldl (fun a td => if a = none ∧ td.index = k ∧ td.id ≠ "" then some td.id else a)
    none

/-- The last non-empty name delivered for slot `k` (`""` if none). -/
def lastSetName (tds : List ToolCallDelta) (k : Nat) : String :=
  tds.foldl (fun a td => if td.index = k ∧ td.name ≠ "" then td.name else a) ""

/-- Concatenation, in arrival order, of all argument fragments delivered
for slot `k`. -/
def argConcat (tds : List ToolCallDelta) (k : Nat) : String :=
  tds.foldl (fun a td => if td.index = k then a ++ td.arguments else a) ""

/-- Total length of the non-empty argument fragments delivered for slot
`k` (the `chars_received` counter). -/
def charsCount (tds : List ToolCallDelta) (k : Nat) : Nat :=
  tds.foldl
    (fun n td => if td.index = k ∧ td.arguments ≠ "" then n + td.arguments.length else n) 0

/-- Whether some delta delivered a non-empty id for slot `k`. -/
def idSet (tds : List ToolCallDelta) (k : Nat) : Bool :=
  tds.any (fun td => td.index = k && td.id ≠ "")

/-- The slot indices whose id was eventually set, in ascending (original)
index order. -/
def survivorIndices (events : List Delta) : List Nat :=
  (List.range (slotCount (flatTCs events))).filter (fun k => idSet (flatTCs events) k)

/-- The slot contents predicted from the events alone. -/
def specSlot (tds : List ToolCallDelta) (k : Nat) : ToolCallSlot :=
  ⟨lastSetId tds k, lastSetName tds k, argConcat tds k, charsCount tds k⟩

/-- The slot of the accumulator after the whole stream. -/
def slotAt (events : List Delta) (k : Nat) : ToolCallSlot :=
  (accumulate events).tool_calls_data.getD k default

/-- `noRefBeforeId seen tds = true` when every delta whose slot index is
not yet in `seen` carries a non-empty id: no event references a slot
before some event assigns that slot an id. -/
def noRefBeforeId (seen : List Nat) : List ToolCallDelta → Bool
  | [] => true
  | td :: rest =>
    if td.index ∈ seen then noRefBeforeId seen rest
    else if td.id ≠ "" then noRefBeforeId (td.index :: seen) rest
    else false

/-! ### List helper lemmas -/

lemma getD_replicate {α : Type} (n k : Nat) (d : α) :
    (List.replicate n d).getD k d = d := by
  induction n generalizing k with
  | zero => cases k <;> rfl
  | succ n ih =>
    cases k with
    | zero => rfl
    | succ k =>
      rw [List.replicate_succ, List.getD_cons_succ]
      exact ih k

lemma getD_append_default {α : Type} (S T : List α) (k : Nat) (d : α)
    (hT : ∀ j, T.getD j d = d) : (S ++ T).getD k d = S.getD k d := by
  induction S generalizing k with
  | nil => simpa using hT k
  | cons a t ih =>
    cases k with
    | zero => rfl
    | succ k => simpa [List.getD_cons_succ] using ih k

lemma getD_set_self {α : Type} (l : List α) (i : Nat) (x d : α) (h : i < l.length) :
    (l.set i x).getD i d = x := by
  rw [List.getD_eq_getElem?_getD, List.getElem?_set_self h]
  rfl

lemma getD_set_ne {α : Type} (l : List α) (i k : Nat) (x d : α) (h : i ≠ k) :
    (l.set i x).getD k d = l.getD k d := by
  rw [List.getD_eq_getElem?_getD, List.getElem?_set_ne h, ← List.getD_eq_getElem?_getD]

lemma filter_map_getD {α β : Type} (p : α → Bool) (f : α → β) (d : α) :
    ∀ S : List α,
      (S.filter p).map f =
        ((List.range S.length).filter (fun k => p (S.getD k d))).map
          (fun k => f (S.getD k d))
  | [] => rfl
  | a :: t => by
    have h1 : ((fun k => p ((a :: t).getD k d)) ∘ Nat.succ) = fun k => p (t.getD k d) := by
      funext k
      simp [Function.comp, List.getD_cons_succ]
    have h2 : ((fun k => f ((a :: t).getD k d)) ∘ Nat.succ) = fun k => f (t.getD k d) := by
      funext k
      simp [Function.comp, List.getD_cons_succ]
    rw [List.length_cons, List.range_succ_eq_map]
    simp only [List.filter_cons, List.getD_cons_zero, List.filter_map, h1]
    by_cases hpa : p a = true
    · rw [if_pos hpa, if_pos hpa, List.map_cons, List.map_cons, List.map_map, h2,
        List.getD_cons_zero, filter_map_getD p f d t]
    · rw [if_neg hpa, if_neg hpa, List.map_map, h2, filter_map_getD p f d t]

/-! ### Characterization of the accumulator -/

lemma getD_extendSlots (S : List ToolCallSlot) (i k : Nat) :
    (extendSlots S i).getD k default = S.getD k default := by
  unfold extendSlots
  exact getD_append_default S _ k default (fun j => getD_replicate _ j default)

lemma length_extendSlots (S : List ToolCallSlot) (i : Nat) :
    (extendSlots S i).length = max S.length (i + 1) := by
  simp [extendSlots]
  omega

lemma getD_applyToolCallDelta (S : List ToolCallSlot) (td : ToolCallDelta) (k : Nat) :
    (applyToolCallDelta S td).getD k default =
      if td.index = k then updateSlot (S.getD k default) td else S.getD k default := by
  unfold applyToolCallDelta
  by_cases h : td.index = k
  · subst h
    rw [getD_set_self _ _ _ _ (by rw [length_extendSlots]; omega), getD_extendSlots]
    simp
  · rw [getD_set_ne _ _ _ _ _ h, getD_extendSlots]
    simp [h]

lemma length_applyToolCallDelta (S : List ToolCallSlot) (td : ToolCallDelta) :
    (applyToolCallDelta S td).length = max S.length (td.index + 1) := by
  unfold applyToolCallDelta
  rw [List.length_set, length_extendSlots]

lemma getD_foldl_applyTCD (tds : List ToolCallDelta) :
    ∀ (S : List ToolCallSlot) (k : Nat),
      (tds.foldl applyToolCallDelta S).getD k default =
        tds.foldl (fun s td => if td.index = k then updateSlot s td else s)
          (S.getD k default) := by
  induction tds with
  | nil => intro S k; rfl
  | cons td rest ih =>
    intro S k
    simp only [List.foldl_cons]
    rw [ih, getD_applyToolCallDelta]

lemma length_foldl_applyTCD (tds : List ToolCallDelta) :
    ∀ S : List ToolCallSlot,
      (tds.foldl applyToolCallDelta S).length =
        tds.foldl (fun n td => max n (td.index + 1)) S.length := by
  induction tds with
  | nil => intro S; rfl
  | cons td rest ih =>
    intro S
    simp only [List.foldl_cons]
    rw [ih, length_applyToolCallDelta]

lemma accumulate_toolData_aux (events : List Delta) :
    ∀ s : AccumState,
      (events.foldl applyDelta s).tool_calls_data =
        ((events.map Delta.tool_calls).flatten).foldl applyToolCallDelta
          s.tool_calls_data := by
  induction events with
  | nil => intro s; rfl
  | cons d rest ih =>
    intro s
    simp only [List.foldl_cons, List.map_cons, List.flatten_cons, List.foldl_append]
    rw [ih]
    rfl

lemma accumulate_toolData (events : List Delta) :
    (accumulate events).tool_calls_data = (flatTCs events).foldl applyToolCallDelta [] :=
  accumulate_toolData_aux events initAccum

lemma foldl_update_eq (k : Nat) :
    ∀ (tds : List ToolCallDelta) (tc : ToolCallSlot),
      tds.foldl (fun s td => if td.index = k then updateSlot s td else s) tc =
        ⟨tds.foldl (fun a td => if td.index = k ∧ td.id ≠ "" then some td.id else a) tc.id,
         tds.foldl (fun a td => if td.index = k ∧ td.name ≠ "" then td.name else a) tc.name,
         tds.foldl (fun a td => if td.index = k then a ++ td.arguments else a) tc.arguments,
         tds.foldl
           (fun n td => if td.index = k ∧ td.arguments ≠ "" then n + td.arguments.length
            else n)
           tc.chars_received⟩
  | [], _ => rfl
  | td :: rest, tc => by
    simp only [List.foldl_cons]
    rw [foldl_update_eq k rest]
    by_cases h : td.index = k
    · by_cases ha : td.arguments = ""
      · simp [updateSlot, h, ha, String.append_empty]
      · simp [updateSlot, h, ha]
    · simp [h]

lemma slotAt_eq (events : List Delta) (k : Nat) :
    slotAt events k = specSlot (flatTCs events) k := by
  unfold slotAt specSlot
  rw [accumulate_toolData, getD_foldl_applyTCD]
  exact foldl_update_eq k (flatTCs events) default

lemma toolData_length (events : List Delta) :
    (accumulate events).tool_calls_data.length = slotCount (flatTCs events) := by
  rw [accumulate_toolData]
  exact length_foldl_applyTCD (flatTCs events) []

lemma truthy_foldl_lastSet (k : Nat) :
    ∀ (tds : List ToolCallDelta) (a : Option String),
      truthyOpt
          (tds.foldl (fun a td => if td.index = k ∧ td.id ≠ "" then some td.id else a) a) =
        (truthyOpt a || idSet tds k)
  | [], a => by simp [idSet]
  | td :: rest, a => by
    simp only [List.foldl_cons]
    rw [truthy_foldl_lastSet k rest]
    by_cases h : td.index = k ∧ td.id ≠ ""
    · have : truthyOpt (some td.id) = true := by
        simp [truthyOpt, h.2]
      simp [h, idSet, this, h.1, h.2]
    · simp only [h, if_false]
      have hfalse : (decide (td.index = k) && !decide (td.id = "")) = false := by
        by_cases h1 : td.index = k
        · have h2 : td.id = "" := by
            by_contra h2
            exact h ⟨h1, h2⟩
          simp [h1, h2]
        · simp [h1]
      simp [idSet, hfalse]

lemma truthy_lastSetId (tds : List ToolCallDelta) (k : Nat) :
    truthyOpt (lastSetId tds k) = idSet tds k := by
  unfold lastSetId
  rw [truthy_foldl_lastSet]
  simp [truthyOpt]

lemma toolCallsList_reconstruct (s : AccumState) :
    (reconstruct s).toolCallsList = survivors s.tool_calls_data := by
  unfold reconstruct RMessage.toolCallsList
  by_cases h : s.tool_calls_data = []
  · simp [h, survivors]
  · simp [h]

lemma survivors_eq (events : List Delta) :
    survivors (accumulate events).tool_calls_data =
      (survivorIndices events).map (fun k =>
        (⟨(lastSetId (flatTCs events) k).getD "", lastSetName (flatTCs events) k,
          argConcat (flatTCs events) k⟩ : ToolCall)) := by
  have hslot : ∀ k, (accumulate events).tool_calls_data.getD k default =
      specSlot (flatTCs events) k := by
    intro k
    have h := slotAt_eq events k
    unfold slotAt at h
    exact h
  unfold survivors survivorIndices
  have h1 := filter_map_getD (fun tc : ToolCallSlot => truthyOpt tc.id)
    (fun tc : ToolCallSlot => (⟨tc.id.getD "", tc.name, tc.arguments⟩ : ToolCall)) default
    (accumulate events).tool_calls_data
  have hp : (fun k => truthyOpt ((accumulate events).tool_calls_data.getD k default).id)
      = fun k => idSet (flatTCs events) k := by
    funext k
    rw [hslot k]
    exact truthy_lastSetId (flatTCs events) k
  have hf : (fun k =>
        ({ id := ((accumulate events).tool_calls_data.getD k default).id.getD ""
           name := ((accumulate events).tool_calls_data.getD k default).name
           arguments :=
             ((accumulate events).tool_calls_data.getD k default).arguments } : ToolCall))
      = fun k =>
        ({ id := (lastSetId (flatTCs events) k).getD ""
           name := lastSetName (flatTCs events) k
           arguments := argConcat (flatTCs events) k } : ToolCall) := by
    funext k
    rw [hslot k]
    rfl
  rw [h1, toolData_length, hp, hf]

lemma argFold_init (k : Nat) :
    ∀ (tds : List ToolCallDelta) (a : String),
      tds.foldl (fun s td => if td.index = k then s ++ td.arguments else s) a =
        a ++ tds.foldl (fun s td => if td.index = k then s ++ td.arguments else s) ""
  | [], a => (String.append_empty a).symm
  | td :: rest, a => by
    simp only [List.foldl_cons]
    by_cases h : td.index = k
    · rw [if_pos h, if_pos h, argFold_init k rest (a ++ td.arguments),
        argFold_init k rest ("" ++ td.arguments)]
      have he : ("" ++ td.arguments : String) = td.arguments := rfl
      rw [he, String.append_assoc]
    · rw [if_neg h, if_neg h]
      exact argFold_init k rest a

lemma argConcat_append (k : Nat) (tds tds' : List ToolCallDelta) :
    argConcat (tds ++ tds') k = argConcat tds k ++ argConcat tds' k := by
  unfold argConcat
  rw [List.foldl_append]
  exact argFold_init k tds' _

/-! ### Claims about the Streaming Response Accumulator -/

/-- C1: for a stream in which no event references a tool-call slot index
before an event assigns that slot an id, the finalized assistant message
carries exactly the slots whose id was eventually set, in original index
order, each with the argument string obtained by concatenating all
fragments delivered for that slot in arrival order (slots without an id
are absent). -/
theorem accumulator_finalizes_id_set_slots (events : List Delta)
    (_H : noRefBeforeId [] (flatTCs events) = true) :
    (reconstruct (accumulate events)).toolCallsList =
      (survivorIndices events).map (fun k =>
        ({ id := (lastSetId (flatTCs events) k).getD ""
           name := lastSetName (flatTCs events) k
           arguments := argConcat (flatTCs events) k } : ToolCall)) := by
  rw [toolCallsList_reconstruct]
  exact survivors_eq events

/-- A stream with two slots, each announced with its id before any
argument fragment, instantiating the C1 theorem. -/
def exC1 : List Delta :=
  [⟨"assistant", "", "", [⟨0, "a1", "write_file", "ab"⟩]⟩,
   ⟨"", "", "", [⟨0, "", "", "cd"⟩, ⟨1, "b2", "list_files", ""⟩]⟩,
   ⟨"", "", "", [⟨1, "", "", "xy"⟩]⟩]

/-- Witness for C1 at a concrete two-slot stream. -/
theorem accumulator_finalizes_id_set_slots_witness :
    noRefBeforeId [] (flatTCs exC1) = true ∧
    (reconstruct (accumulate exC1)).toolCallsList =
      (survivorIndices exC1).map (fun k =>
        ({ id := (lastSetId (flatTCs exC1) k).getD ""
           name := lastSetName (flatTCs exC1) k
           arguments := argConcat (flatTCs exC1) k } : ToolCall)) :=
  ⟨rfl, accumulator_finalizes_id_set_slots exC1 rfl⟩

/-- A stream delivering two different non-empty ids for slot 0. -/
def exC3 : List Delta :=
  [⟨"", "", "", [⟨0, "first", "f", "ab"⟩]⟩,
   ⟨"", "", "", [⟨0, "second", "", "cd"⟩]⟩]

/-- C3 counterexample: the first non-empty id delivered for slot 0 is
`"first"`, yet the accumulator finishes with `"second"` — a later
non-empty id replaces the earlier one, contradicting the claimed
first-non-empty-value-wins rule. -/
theorem slot_id_not_first_wins :
    firstSetId (flatTCs exC3) 0 = some "first" ∧
    (slotAt exC3 0).id = some "second" ∧
    (some "second" : Option String) ≠ some "first" :=
  ⟨rfl, rfl, by decide⟩

/-- C3 amended: during stream accumulation each slot's id and name hold
the LAST non-empty value observed for that slot (each non-empty value
overwrites the previous one), while the argument string is the
concatenation of all fragments in arrival order, and argument
accumulation is append-only: extending the stream only appends to the
accumulated argument string. -/
theorem slot_accumulation_last_wins (events : List Delta) (k : Nat) :
    (slotAt events k).id = lastSetId (flatTCs events) k ∧
    (slotAt events k).name = lastSetName (flatTCs events) k ∧
    (slotAt events k).arguments = argConcat (flatTCs events) k ∧
    ∀ tds tds' : List ToolCallDelta,
      argConcat (tds ++ tds') k = argConcat tds k ++ argConcat tds' k := by
  refine ⟨?_, ?_, ?_, fun tds tds' => argConcat_append k tds tds'⟩
  · rw [slotAt_eq]
    rfl
  · rw [slotAt_eq]
    rfl
  · rw [slotAt_eq]
    rfl

/-! ### Claims about the Tool Dispatcher and the Agent Loop Controller -/

/-- Whether an external call returned normally. -/
def PyResult.isOk : PyResult α → Bool
  | .ok _ => true
  | _ => false

/-- The value of a normal return (`""` otherwise). -/
def okValue : PyResult String → String
  | .ok r => r
  | _ => ""

/-- The result text an ordinary (non-`compress_context`) invocation
produces: registry lookup (line 448), synthetic error string for unknown
names (line 451), otherwise the tool applied to the leniently parsed
arguments (lines 439-442, 469). -/
def ordinaryResult (O : Oracle) (tc : ToolCall) : PyResult String :=
  match O.toolMap tc.name with
  | none => .ok ("Error: Unknown tool '" ++ tc.name ++ "'")
  | some f => f ((O.jsonParse tc.arguments).getD ArgObj.empty)

/-- A do-nothing environment used to instantiate theorems: estimator
returns 0, compressor and model raise `Exception`, empty tool registry,
nothing parses as JSON. -/
def noopOracle : Oracle :=
  { estimate := fun _ => .ok 0
    compress := fun _ _ => .exn "unavailable"
    modelCall := fun _ _ => .exn "unavailable"
    toolMap := fun _ => none
    jsonParse := fun _ => none }

lemma dispatch_noraise_aux (O : Oracle) :
    ∀ (tcs : List ToolCall) (ms : List Turn),
      (∀ tc ∈ tcs, tc.name ≠ "compress_context" ∧ (ordinaryResult O tc).isOk = true) →
      (dispatchTools O ms tcs).1 =
        .ok (ms ++ tcs.map fun tc => toolTurn tc.id tc.name (okValue (ordinaryResult O tc))) := by
  intro tcs
  induction tcs with
  | nil =>
    intro ms _
    simp [dispatchTools]
  | cons tc rest ih =>
    intro ms H
    obtain ⟨hname, hok⟩ := H tc (List.mem_cons_self tc rest)
    have Hrest := fun tc' h' => H tc' (List.mem_cons_of_mem tc h')
    cases hmap : O.toolMap tc.name with
    | none =>
      have hval : okValue (ordinaryResult O tc) = "Error: Unknown tool '" ++ tc.name ++ "'" := by
        simp [ordinaryResult, hmap, okValue]
      simp only [dispatchTools, hmap]
      rw [ih _ Hrest]
      simp [hval]
    | some f =>
      have hres : ordinaryResult O tc = f ((O.jsonParse tc.arguments).getD ArgObj.empty) := by
        simp [ordinaryResult, hmap]
      cases hf : f ((O.jsonParse tc.arguments).getD ArgObj.empty) with
      | ok r =>
        have hval : okValue (ordinaryResult O tc) = r := by
          rw [hres, hf]
          rfl
        simp only [dispatchTools, hmap, if_neg hname, hf]
        rw [ih _ Hrest]
        simp [hval]
      | exn e =>
        rw [hres, hf] at hok
        simp [PyResult.isOk] at hok
      | intr =>
        rw [hres, hf] at hok
        simp [PyResult.isOk] at hok

/-- An environment whose only tool, `boom`, raises an `Exception`. -/
def boomOracle : Oracle :=
  { noopOracle with
    toolMap := fun n => if n = "boom" then some (fun _ => .exn "tool crashed") else none }

/-- The raising invocation used in the C2 counterexample. -/
def tcBoom : ToolCall := ⟨"call1", "boom", "x"⟩

/-- C2 counterexample: when the tool raises, the dispatch loop aborts
with the store unchanged — the exception escapes to the iteration-level
handler and zero (not exactly one) tool Turns referencing the invocation
id are appended. -/
theorem tool_exception_drops_result_turn :
    dispatchTools boomOracle (initMessages "sys" "user") [tcBoom] =
      (.exn (initMessages "sys" "user"), [.toolExec "boom"]) ∧
    ((initMessages "sys" "user").filter
        (fun t => t.role = "tool" && t.tool_call_id = some "call1")).length = 0 ∧
    (0 : Nat) ≠ 1 :=
  ⟨rfl, rfl, by decide⟩

/-- C2 amended: every invocation that is not the special
`compress_context` tool and whose execution does not raise appends
exactly one tool Turn referencing that invocation's id, in order (unknown
names contribute the synthetic error string as result text); an
invocation whose tool raises instead aborts the dispatch loop with no
tool Turn for it, the exception escaping to the iteration-level handler
which continues the loop. -/
theorem dispatch_one_turn_per_nonraising_invocation (O : Oracle) (tcs : List ToolCall)
    (ms : List Turn)
    (H : ∀ tc ∈ tcs, tc.name ≠ "compress_context" ∧ (ordinaryResult O tc).isOk = true) :
    (dispatchTools O ms tcs).1 =
      .ok (ms ++ tcs.map fun tc => toolTurn tc.id tc.name (okValue (ordinaryResult O tc))) :=
  dispatch_noraise_aux O tcs ms H

/-- An environment with one succeeding tool, `echo`. -/
def echoOracle : Oracle :=
  { noopOracle with
    toolMap := fun n => if n = "echo" then some (fun _ => .ok "done") else none }

/-- Witness for the amended C2: one succeeding invocation and one
unknown-name invocation each append exactly one tool Turn. -/
theorem dispatch_one_turn_per_nonraising_invocation_witness :
    (∀ tc ∈ [(⟨"c1", "echo", "x"⟩ : ToolCall), ⟨"c2", "nope", "y"⟩],
        tc.name ≠ "compress_context" ∧ (ordinaryResult echoOracle tc).isOk = true) ∧
    (dispatchTools echoOracle [] [(⟨"c1", "echo", "x"⟩ : ToolCall), ⟨"c2", "nope", "y"⟩]).1 =
      .ok ([] ++
        [(⟨"c1", "echo", "x"⟩ : ToolCall), ⟨"c2", "nope", "y"⟩].map fun tc =>
          toolTurn tc.id tc.name (okValue (ordinaryResult echoOracle tc))) :=
  ⟨by decide, dispatch_one_turn_per_nonraising_invocation echoOracle _ [] (by decide)⟩

/-- C5: dispatching an invocation whose name is absent from the registry
yields the synthetic result string `Error: Unknown tool '<name>'`,
appended as one tool Turn whose content is non-empty, and the dispatcher
does not raise. -/
theorem unknown_tool_dispatch (O : Oracle) (ms : List Turn) (tc : ToolCall)
    (h : O.toolMap tc.name = none) :
    dispatchTools O ms [tc] =
      (.ok (ms ++ [toolTurn tc.id tc.name ("Error: Unknown tool '" ++ tc.name ++ "'")]),
        []) ∧
    ("Error: Unknown tool '" ++ tc.name ++ "'") ≠ "" := by
  constructor
  · simp [dispatchTools, h]
  · intro hcontra
    have hlen := congrArg String.length hcontra
    rw [String.length_append, String.length_append] at hlen
    have h22 : ("Error: Unknown tool '" : String).length = 21 := by decide
    have hq : ("'" : String).length = 1 := by decide
    have h0 : ("" : String).length = 0 := by decide
    rw [h22, hq, h0] at hlen
    omega

/-- Witness for C5 at a concrete unknown name. -/
theorem unknown_tool_dispatch_witness :
    noopOracle.toolMap "nope" = none ∧
    (dispatchTools noopOracle [] [(⟨"t1", "nope", "x"⟩ : ToolCall)] =
      (.ok ([] ++ [toolTurn "t1" "nope" ("Error: Unknown tool '" ++ "nope" ++ "'")]), []) ∧
    ("Error: Unknown tool '" ++ "nope" ++ "'") ≠ "") :=
  ⟨rfl, unknown_tool_dispatch noopOracle [] ⟨"t1", "nope", "x"⟩ rfl⟩

/-- C6: for every tool name, dispatching with an argument string that
fails JSON parsing is identical to dispatching the same tool with the
literal empty-object argument string: the parse failure is absorbed into
an empty argument object. -/
theorem unparsable_args_like_empty_object (O : Oracle) (ms : List Turn)
    (callId nm s : String) (rest : List ToolCall)
    (h1 : O.jsonParse s = none) (h2 : O.jsonParse "\x7b\x7d" = some ArgObj.empty) :
    dispatchTools O ms (⟨callId, nm, s⟩ :: rest) =
      dispatchTools O ms (⟨callId, nm, "\x7b\x7d"⟩ :: rest) := by
  simp only [dispatchTools, h1, h2, Option.getD_none, Option.getD_some]

/-- An environment whose JSON parser accepts exactly the empty-object
literal. -/
def jsonOracle : Oracle :=
  { noopOracle with
    jsonParse := fun s => if s = "\x7b\x7d" then some ArgObj.empty else none }

/-- Witness for C6 at a concrete unparsable argument string. -/
theorem unparsable_args_like_empty_object_witness :
    jsonOracle.jsonParse "not json" = none ∧
    jsonOracle.jsonParse "\x7b\x7d" = some ArgObj.empty ∧
    dispatchTools jsonOracle [] [(⟨"t1", "write_file", "not json"⟩ : ToolCall)] =
      dispatchTools jsonOracle [] [(⟨"t1", "write_file", "\x7b\x7d"⟩ : ToolCall)] :=
  ⟨by decide, by decide,
    unparsable_args_like_empty_object jsonOracle [] "t1" "write_file" "not json" []
      (by decide) (by decide)⟩

/-- A content-only streamed response (no tool-call deltas). -/
def haikuDelta : Delta :=
  ⟨"assistant", "pondering form", "an autumn haiku", []⟩

/-- An environment whose model call streams content only. -/
def haikuOracle : Oracle :=
  { noopOracle with modelCall := fun _ _ => .ok [haikuDelta] }

/-- The store after the content-only scenario: system, user, assistant. -/
def haikuFinal : List Turn :=
  initMessages "You are a writing agent." "write a haiku" ++
    [convertMessage (reconstruct (accumulate [haikuDelta]))]

/-- C4: a finalized assistant message with zero surviving tool
invocations makes the iteration `break` (the loop terminates successfully
in that same iteration); concretely, from a two-entry store with a model
response streaming only content, the loop completes after exactly one
iteration with a store of length 3. -/
theorem no_tool_calls_terminates :
    (∀ (O : Oracle) (i : Nat) (ms : List Turn) (events : List Delta),
        O.modelCall i ms = .ok events →
        (reconstruct (accumulate events)).toolCallsList = [] →
        (iterBody O i ms).1 =
          .done (ms ++ [convertMessage (reconstruct (accumulate events))])) ∧
    (runMain haikuOracle (initMessages "You are a writing agent." "write a haiku")).1 =
      .completed 1 haikuFinal ∧
    haikuFinal.length = 3 := by
  refine ⟨?_, rfl, rfl⟩
  intro O i ms events hm hempty
  unfold iterBody
  rw [hm]
  simp [hempty]

/-- Witness for the universally quantified part of C4. -/
theorem no_tool_calls_terminates_witness :
    haikuOracle.modelCall 1 (initMessages "s" "u") = .ok [haikuDelta] ∧
    (reconstruct (accumulate [haikuDelta])).toolCallsList = [] ∧
    (iterBody haikuOracle 1 (initMessages "s" "u")).1 =
      .done (initMessages "s" "u" ++ [convertMessage (reconstruct (accumulate [haikuDelta]))]) :=
  ⟨rfl, rfl,
    no_tool_calls_terminates.1 haikuOracle 1 (initMessages "s" "u") [haikuDelta] rfl rfl⟩

/-- C7: when token estimation raises, the token-check phase returns an
assumed count of 0 with the store unchanged and no compression attempted
(its only external call is the estimator), and the iteration simply
proceeds with the rest of its work — an estimation failure never aborts
the loop. -/
theorem estimation_failure_nonfatal (O : Oracle) (i : Nat) (ms : List Turn) (e : String)
    (h : O.estimate ms = .exn e) :
    phaseEstimate O ms = (.ok (0, ms), [.estimateCall ms.length]) ∧
    runIteration O i ms =
      ((afterEstimate O i ms).1, .estimateCall ms.length :: (afterEstimate O i ms).2) := by
  have h1 : phaseEstimate O ms = (.ok (0, ms), [.estimateCall ms.length]) := by
    unfold phaseEstimate
    rw [h]
  refine ⟨h1, ?_⟩
  unfold runIteration
  rw [h1]
  rfl

/-- An environment whose token estimator raises an `Exception`. -/
def estFailOracle : Oracle :=
  { noopOracle with estimate := fun _ => .exn "estimator down" }

/-- Witness for C7 at a concrete failing estimator. -/
theorem estimation_failure_nonfatal_witness :
    estFailOracle.estimate (initMessages "s" "u") = .exn "estimator down" ∧
    (phaseEstimate estFailOracle (initMessages "s" "u") =
        (.ok (0, initMessages "s" "u"), [.estimateCall (initMessages "s" "u").length]) ∧
      runIteration estFailOracle 1 (initMessages "s" "u") =
        ((afterEstimate estFailOracle 1 (initMessages "s" "u")).1,
          .estimateCall (initMessages "s" "u").length ::
            (afterEstimate estFailOracle 1 (initMessages "s" "u")).2)) :=
  ⟨rfl, estimation_failure_nonfatal estFailOracle 1 (initMessages "s" "u") "estimator down" rfl⟩

/-- C8: a transport or provider error during the streaming model call
abandons the iteration atomically — the iteration body returns with the
store unchanged (no Turn appended) and the loop continues with the next
iteration rather than terminating. -/
theorem model_call_error_abandons_iteration (O : Oracle) (i : Nat) (ms : List Turn)
    (e : String) (h : O.modelCall i ms = .exn e) :
    iterBody O i ms = (.next ms, [.modelCall ms.length]) := by
  unfold iterBody
  rw [h]

/-- Witness for C8: `noopOracle`'s model call raises. -/
theorem model_call_error_abandons_iteration_witness :
    noopOracle.modelCall 1 (initMessages "s" "u") = .exn "unavailable" ∧
    iterBody noopOracle 1 (initMessages "s" "u") =
      (.next (initMessages "s" "u"), [.modelCall (initMessages "s" "u").length]) :=
  ⟨rfl, model_call_error_abandons_iteration noopOracle 1 (initMessages "s" "u")
    "unavailable" rfl⟩

/-- An environment whose token estimator raises `KeyboardInterrupt`. -/
def intrEstOracle : Oracle :=
  { noopOracle with estimate := fun _ => .intr }

/-- C9 counterexample: a keyboard interrupt during token estimation is
NOT caught by the `except KeyboardInterrupt` handler (that handler covers
only the model-call/tool-dispatch block, and the estimation block's
`except Exception` does not catch `KeyboardInterrupt`): the iteration
crashes with no snapshot attempt instead of exiting cleanly with code
0. -/
theorem interrupt_during_estimation_not_handled :
    runIteration intrEstOracle 1 (initMessages "sys" "user") =
      (.crash, [.estimateCall 2]) ∧
    IterResult.crash ≠ IterResult.exit 0 :=
  ⟨rfl, by decide⟩

/-- C9 amended: a keyboard interrupt raised inside the block guarded by
the `except KeyboardInterrupt` handler (the streaming model call /
tool-dispatch block) triggers a best-effort snapshot-only compression
with keep-recent equal to the full store length — whose outcome, raise or
not, is ignored — followed by `sys.exit(0)`; an interrupt during token
estimation or the periodic backup instead propagates uncaught. -/
theorem interrupt_in_model_call_saves_and_exits (O : Oracle) (i : Nat) (ms : List Turn)
    (h : O.modelCall i ms = .intr) :
    iterBody O i ms =
      (.exit 0, [.modelCall ms.length, .compressCall ms.length ms.length]) := by
  unfold iterBody interruptSave
  rw [h]

/-- An environment whose model call raises `KeyboardInterrupt`. -/
def intrModelOracle : Oracle :=
  { noopOracle with modelCall := fun _ _ => .intr }

/-- Witness for the amended C9 at a concrete interrupted model call. -/
theorem interrupt_in_model_call_saves_and_exits_witness :
    intrModelOracle.modelCall 1 (initMessages "s" "u") = .intr ∧
    iterBody intrModelOracle 1 (initMessages "s" "u") =
      (.exit 0, [.modelCall (initMessages "s" "u").length,
        .compressCall (initMessages "s" "u").length (initMessages "s" "u").length]) :=
  ⟨rfl, interrupt_in_model_call_saves_and_exits intrModelOracle 1 (initMessages "s" "u") rfl⟩

/-- C10: if the loop ends via the success `break` at exactly iteration
`MAX_ITERATIONS`, the post-loop cap-reached path still runs: the final
snapshot-only compression (keep-recent = full store length) is invoked
even though the task completed successfully, because the post-loop test
is `iteration >= MAX_ITERATIONS` regardless of how the loop ended. -/
theorem success_break_at_cap_still_saves (O : Oracle) (ms0 msF : List Turn)
    (h : (loopFrom O 1 MAX_ITERATIONS ms0).1 = .broke MAX_ITERATIONS msF) :
    (runMain O ms0).2 =
      (loopFrom O 1 MAX_ITERATIONS ms0).2 ++ [.compressCall msF.length msF.length] := by
  rcases hL : loopFrom O 1 MAX_ITERATIONS ms0 with ⟨r, log⟩
  rw [hL] at h
  simp only at h
  subst h
  unfold runMain
  rw [hL]
  simp only [le_refl, if_pos]
  unfold postLoopSave
  cases O.compress msF msF.length <;> simp

/-- An environment whose model call fails with a transport error on every
iteration before the cap and streams a content-only response at the
cap. -/
def capOracle : Oracle :=
  { noopOracle with
    modelCall := fun i _ =>
      if i < MAX_ITERATIONS then .exn "transport error" else .ok [haikuDelta] }

/-- The store when `capOracle`'s run breaks at the cap. -/
def capFinal : List Turn :=
  initMessages "sys" "finish the book" ++
    [convertMessage (reconstruct (accumulate [haikuDelta]))]

set_option maxRecDepth 100000 in
/-- Witness for C10: a run that breaks successfully at exactly iteration
`MAX_ITERATIONS` and still performs the post-loop snapshot. -/
theorem success_break_at_cap_still_saves_witness :
    (loopFrom capOracle 1 MAX_ITERATIONS (initMessages "sys" "finish the book")).1 =
      .broke MAX_ITERATIONS capFinal ∧
    (runMain capOracle (initMessages "sys" "finish the book")).2 =
      (loopFrom capOracle 1 MAX_ITERATIONS (initMessages "sys" "finish the book")).2 ++
        [.compressCall capFinal.length capFinal.length] :=
  ⟨rfl, success_break_at_cap_still_saves capOracle (initMessages "sys" "finish the book")
    capFinal rfl⟩

end KimiWriter
